import Mathlib

/-!
Verification of the gatewaysshd service-rendezvous core.

Shallow embedding of the Go sources:
  * `src/gateway/connection.go` — per-connection service registry, global-request
    dispatch, `direct-tcpip` channel handling, `Close`;
  * `src/unnamed/part_000` — the gateway registry (`AddSession` / `DeleteSession` /
    `LookupSessionService` / `ScavengeSessions`; in that older file the type named
    `Session` is the per-client connection, called `Connection` in the newer file
    and in this development).

Go strings are modelled as lists of bytes (`Str := List Nat`); the byte 46 is the
ASCII dot used by `strings.Split(host, ".")` / `strings.Join(parts, ".")`.
Go `map` values are modelled as association lists (`servicesLookup` /
`servicesUpdate`) or as functions with the Go zero-value default (the gateway's
per-user index).  Pointer identity of connections is modelled by the `id` field
(the source assigns each connection a fresh ksuid).  Machine integers: decoded
ports are `Nat`; the Go conversion `uint16(p)` of a `uint32` is `p % 65536`.
-/

/-- Go strings, as lists of bytes. -/
abbrev Str : Type := List Nat

/-- Byte-list of a Lean string literal, for writing concrete hosts and users. -/
def str (s : String) : Str := s.data.map Char.toNat

/-- The ASCII code of the dot separator used by the hierarchical host names. -/
def dotByte : Nat := 46

/-- `strings.Split(s, ".")`: split a byte string at every dot; the empty string
splits into one empty part, and `n` dots yield `n + 1` parts. -/
def splitDot : List Nat → List (List Nat)
  | [] => [[]]
  | b :: rest =>
    if b = dotByte then [] :: splitDot rest
    else
      match splitDot rest with
      | [] => [[b]]
      | p :: ps => (b :: p) :: ps

/-- `strings.Join(parts, ".")`: interleave the parts with dots. -/
def joinDot : List (List Nat) → List Nat
  | [] => []
  | [s] => s
  | s :: rest => s ++ dotByte :: joinDot rest

/-- Errors of the connection-level service registry (`connection.go`). -/
inductive GwError where
  | serviceAlreadyRegistered
  | serviceNotFound
deriving DecidableEq

/-- Go-map lookup in the association-list model of `services`
(`map[string]map[uint16]bool`, outer level): `none` models an absent key. -/
def servicesLookup : List (Str × List Nat) → Str → Option (List Nat)
  | [], _ => none
  | (h, ps) :: rest, host => if h = host then some ps else servicesLookup rest host

/-- Go-map store in the association-list model of `services`: replace the entry
of an existing key, or add a fresh entry. -/
def servicesUpdate : List (Str × List Nat) → Str → List Nat → List (Str × List Nat)
  | [], host, ports => [(host, ports)]
  | (h, ps) :: rest, host, ports =>
    if h = host then (host, ports) :: rest
    else (h, ps) :: servicesUpdate rest host ports

/-- One authenticated client connection (`Connection` in `connection.go`;
`Session` in the older gateway file).  Only the state the verified operations
touch is modelled: `id` stands for pointer identity, `services` is the
advertised `host → set of ports` map, `used` is the last-used timestamp,
`closed` records that the `sync.Once` of `Close` has fired, and `sessions` /
`tunnels` hold the identities of the live child channels. -/
structure Connection where
  id : Nat
  user : Str
  services : List (Str × List Nat)
  admin : Bool
  used : Int
  closed : Bool
  sessions : List Nat
  tunnels : List Nat
deriving DecidableEq

/-- `Connection.lookupService`: is `(host, port)` advertised?  The Go code
returns `c.services[host][port]`, whose zero value is `false` when either key
is absent. -/
def Connection.lookupService (c : Connection) (host : Str) (port : Nat) : Bool :=
  match servicesLookup c.services host with
  | none => false
  | some ports => ports.contains port

/-- `Connection.registerService`: fail with `ErrServiceAlreadyRegistered` when
`(host, port)` is already present, otherwise add it.  The pair returns the Go
error value together with the connection state after the call. -/
def Connection.registerService (c : Connection) (host : Str) (port : Nat) :
    Option GwError × Connection :=
  let ports := (servicesLookup c.services host).getD []
  if ports.contains port then
    (some GwError.serviceAlreadyRegistered, c)
  else
    (none, { c with services := servicesUpdate c.services host (port :: ports) })

/-- `Connection.deregisterService`: delete `port` from the inner map of `host`
when the outer key exists (Go `delete` keeps the outer entry); always succeeds. -/
def Connection.deregisterService (c : Connection) (host : Str) (port : Nat) :
    Option GwError × Connection :=
  match servicesLookup c.services host with
  | none => (none, c)
  | some ports =>
    (none, { c with services := servicesUpdate c.services host (ports.filter (fun p => p != port)) })

/-- The process-wide registry (`Gateway`): the per-user index and the flat list
of live connections.  The index is a function with the Go-map zero value `[]`
for absent users. -/
structure Gateway where
  connectionsIndex : Str → List Connection
  connectionsList : List Connection

/-- The empty registry a fresh `Gateway` starts with (`NewGateway` initializes
an empty index and list; keys and certificates are outside this model). -/
def newGateway : Gateway :=
  { connectionsIndex := fun _ => [], connectionsList := [] }

/-- `Gateway.AddSession` (called `addConnection` in the newer sources): prepend
the connection to its user's index entry and to the flat list. -/
def Gateway.addConnection (g : Gateway) (c : Connection) : Gateway :=
  { connectionsIndex := fun u =>
      if u = c.user then c :: g.connectionsIndex c.user else g.connectionsIndex u,
    connectionsList := c :: g.connectionsList }

/-- `Gateway.DeleteSession` (`deleteConnection`): remove the connection, by
identity, from its user's index entry and from the flat list. -/
def Gateway.deleteConnection (g : Gateway) (c : Connection) : Gateway :=
  { connectionsIndex := fun u =>
      if u = c.user then (g.connectionsIndex c.user).filter (fun s => s.id != c.id)
      else g.connectionsIndex u,
    connectionsList := g.connectionsList.filter (fun s => s.id != c.id) }

/-- The body of the lookup loop of `Gateway.LookupSessionService`: at partition
index `i`, the first `i` parts joined are the candidate service host and the
remaining parts joined are the candidate user; return the first connection of
that user advertising the candidate `(host, port)`, if any. -/
def lookupProbe (g : Gateway) (parts : List (List Nat)) (port : Nat) (i : Nat) :
    Option (Connection × Str × Nat) :=
  match (g.connectionsIndex (joinDot (parts.drop i))).find?
      (fun s => s.lookupService (joinDot (parts.take i)) port) with
  | some s => some (s, joinDot (parts.take i), port)
  | none => none

/-- `Gateway.LookupSessionService` (`lookupConnectionService`): split the full
host at the dots; for `i` ranging over `0, …, parts.length - 1` (the Go loop
`for i := range parts`), probe the partition at `i` and return the first hit. -/
def Gateway.lookupConnectionService (g : Gateway) (host : Str) (port : Nat) :
    Option (Connection × Str × Nat) :=
  (List.range (splitDot host).length).findSome? (lookupProbe g (splitDot host) port)

/-! ### Wire codecs

The codec source file is not under `src/`; the definitions below are modelled
from the spec (§4.1): both payloads are SSH string-and-uint32 framed, a string
being a 32-bit big-endian length prefix followed by that many bytes, and
decoding fails when a length prefix runs past the buffer. -/

/-- Modelled from the spec: read a big-endian `uint32` from the front of a byte
buffer (the codec source is missing from `src/`). -/
def readUint32 : List Nat → Option (Nat × List Nat)
  | b0 :: b1 :: b2 :: b3 :: rest => some (((b0 * 256 + b1) * 256 + b2) * 256 + b3, rest)
  | _ => none

/-- Modelled from the spec: read an SSH string (32-bit big-endian length prefix
followed by that many bytes); fails when the length runs past the buffer. -/
def readSshString (bs : List Nat) : Option (Str × List Nat) :=
  match readUint32 bs with
  | none => none
  | some (n, rest) =>
    if n ≤ rest.length then some (rest.take n, rest.drop n) else none

/-- Modelled from the spec: big-endian `uint32` encoding of a number. -/
def writeUint32 (n : Nat) : List Nat :=
  [n / 16777216 % 256, n / 65536 % 256, n / 256 % 256, n % 256]

/-- Modelled from the spec: SSH string encoding (length prefix plus bytes). -/
def writeSshString (s : Str) : List Nat :=
  writeUint32 (List.length s) ++ s

/-- The `ForwardRequest` payload of `tcpip-forward` / `cancel-tcpip-forward`:
`{ host : string, port : uint32 }`. -/
structure ForwardRequest where
  host : Str
  port : Nat
deriving DecidableEq

/-- Modelled from the spec: decode a `ForwardRequest` (`unmarshalForwardRequest`;
the codec source is missing from `src/`). -/
def unmarshalForwardRequest (bs : List Nat) : Option ForwardRequest :=
  match readSshString bs with
  | none => none
  | some (host, rest) =>
    match readUint32 rest with
    | none => none
    | some (port, _) => some { host := host, port := port }

/-- Modelled from the spec: encode a `ForwardRequest`. -/
def marshalForwardRequest (r : ForwardRequest) : List Nat :=
  writeSshString r.host ++ writeUint32 r.port

/-- The `TunnelData` payload of `direct-tcpip` / `forwarded-tcpip`:
`{ host, port, origin_address, origin_port }`. -/
structure TunnelData where
  host : Str
  port : Nat
  originAddress : Str
  originPort : Nat
deriving DecidableEq

/-- Modelled from the spec: decode a `TunnelData` (`unmarshalTunnelData`;
the codec source is missing from `src/`). -/
def unmarshalTunnelData (bs : List Nat) : Option TunnelData :=
  match readSshString bs with
  | none => none
  | some (host, rest) =>
    match readUint32 rest with
    | none => none
    | some (port, rest2) =>
      match readSshString rest2 with
      | none => none
      | some (origin, rest3) =>
        match readUint32 rest3 with
        | none => none
        | some (originPort, _) =>
          some { host := host, port := port, originAddress := origin, originPort := originPort }

/-- Modelled from the spec: encode a `TunnelData` (`marshalTunnelData`). -/
def marshalTunnelData (d : TunnelData) : List Nat :=
  writeSshString d.host ++ writeUint32 d.port ++ writeSshString d.originAddress ++ writeUint32 d.originPort

/-! ### Request and channel dispatch -/

/-- `Connection.handleRequest` on the two recognized global request types
(`tcpip-forward` and `cancel-tcpip-forward`): returns the boolean sent back by
`request.Reply` together with the connection state after the call.  The Go
`uint16(request.Port)` conversion is `% 65536`. -/
def Connection.handleRequest (c : Connection) (requestType : Str) (payload : List Nat) :
    Bool × Connection :=
  if requestType = str "tcpip-forward" then
    match unmarshalForwardRequest payload with
    | none => (false, c)
    | some req =>
      if req.port = 0 then (false, c)
      else
        match c.registerService req.host (req.port % 65536) with
        | (some _, c2) => (false, c2)
        | (none, c2) => (true, c2)
  else if requestType = str "cancel-tcpip-forward" then
    match unmarshalForwardRequest payload with
    | none => (false, c)
    | some req =>
      match c.deregisterService req.host (req.port % 65536) with
      | (some _, c2) => (false, c2)
      | (none, c2) => (true, c2)
  else (false, c)

/-- SSH channel-open rejection reasons used by the dispatchers. -/
inductive RejectionReason where
  | prohibited
  | connectionFailed
  | unknownChannelType
  | resourceShortage
deriving DecidableEq

/-- Outcome of `Connection.handleTunnelChannel` up to its first I/O action:
either the incoming `direct-tcpip` channel is rejected with a reason, or the
gateway proceeds to open a `forwarded-tcpip` channel on the target connection
(identified by `targetId`) whose extra-data is `marshalTunnelData payload`. -/
inductive TunnelChannelResult where
  | rejected (reason : RejectionReason)
  | opensForwarded (targetId : Nat) (payload : TunnelData)
deriving DecidableEq

/-- `Connection.handleTunnelChannel`: decode the `direct-tcpip` extra-data,
look the service up across the gateway, check the caller's `admin` flag, and
on success open `forwarded-tcpip` on the target with the destination rewritten
to the registered coordinates and the origin fields propagated.  The decode
failure, lookup failure and permission rejections are in the source's order. -/
def Connection.handleTunnelChannel (c : Connection) (g : Gateway) (extraData : List Nat) :
    TunnelChannelResult :=
  match unmarshalTunnelData extraData with
  | none => TunnelChannelResult.rejected RejectionReason.unknownChannelType
  | some data =>
    match g.lookupConnectionService data.host (data.port % 65536) with
    | none => TunnelChannelResult.rejected RejectionReason.connectionFailed
    | some (connection, host, port) =>
      if !c.admin then TunnelChannelResult.rejected RejectionReason.prohibited
      else
        TunnelChannelResult.opensForwarded connection.id
          { host := host, port := port,
            originAddress := data.originAddress, originPort := data.originPort }

/-! ### Teardown and the scavenger -/

/-- The primitive teardown actions `Connection.Close` performs, in order. -/
inductive CloseAction where
  | deleteFromGateway
  | closeSession (id : Nat)
  | closeTunnel (id : Nat)
  | closeTransport
deriving DecidableEq

/-- `Connection.Close`: guarded by `sync.Once` (modelled by the `closed` flag),
it deregisters from the gateway, closes every child session and tunnel, then
closes the transport.  Returns the new gateway state, the new connection state
and the ordered trace of teardown actions. -/
def Connection.Close (g : Gateway) (c : Connection) :
    Gateway × Connection × List CloseAction :=
  if c.closed then (g, c, [])
  else
    (g.deleteConnection c, { c with closed := true },
      CloseAction.deleteFromGateway ::
        (c.sessions.map CloseAction.closeSession ++
          c.tunnels.map CloseAction.closeTunnel ++ [CloseAction.closeTransport]))

/-- The loop body of `Gateway.ScavengeSessions`: walk the snapshot of the
connection list, closing every connection whose idle time strictly exceeds the
timeout. -/
def scavengeGo (now timeout : Int) : Gateway → List Connection → Gateway
  | g, [] => g
  | g, c :: rest =>
    if now - c.used > timeout then scavengeGo now timeout (Connection.Close g c).1 rest
    else scavengeGo now timeout g rest

/-- `Gateway.ScavengeSessions` (`ScavengeConnections`): `time.Since(c.Used())`
is `now - c.used`. -/
def Gateway.scavengeConnections (g : Gateway) (now timeout : Int) : Gateway :=
  scavengeGo now timeout g g.connectionsList

/-! ### Concrete instances used by counterexamples and witnesses -/

/-- A connection with the given identity, user, services and admin flag and
quiescent remaining state. -/
def mkConn (i : Nat) (user : Str) (services : List (Str × List Nat)) (admin : Bool) : Connection :=
  { id := i, user := user, services := services, admin := admin,
    used := 0, closed := false, sessions := [], tunnels := [] }

/-- A live connection of user `alice` advertising the service `("api", 80)`. -/
def connAlice : Connection := mkConn 1 (str "alice") [(str "api", [80])] true

/-- A live connection of the empty user advertising the service `("api", 80)`. -/
def connEmptyUser : Connection := mkConn 2 (str "") [(str "api", [80])] true

/-- A gateway holding exactly `connAlice`. -/
def gatewayAlice : Gateway := newGateway.addConnection connAlice

/-- A gateway holding exactly `connEmptyUser`. -/
def gatewayEmptyUser : Gateway := newGateway.addConnection connEmptyUser

/-- A non-admin caller connection. -/
def connNoAdmin : Connection := mkConn 3 (str "x") [] false

/-- An admin caller connection. -/
def connAdmin : Connection := mkConn 5 (str "caller") [] true

/-- A target connection of user `alice` advertising the empty host label on
port 22, as in the basic-rendezvous scenario of the spec. -/
def connTarget : Connection := mkConn 4 (str "alice") [(str "", [22])] true

/-- A gateway holding exactly `connTarget`. -/
def gatewayTarget : Gateway := newGateway.addConnection connTarget

/-- `direct-tcpip` extra-data requesting service `("alice", 22)` from origin
`1.2.3.4:5`. -/
def tdToAlice : List Nat :=
  marshalTunnelData { host := str "alice", port := 22, originAddress := str "1.2.3.4", originPort := 5 }

/-- `direct-tcpip` extra-data requesting the unregistered service `("nope", 1)`. -/
def tdToNowhere : List Nat :=
  marshalTunnelData { host := str "nope", port := 1, originAddress := str "1.2.3.4", originPort := 5 }

/-- A fresh connection used by the registration claims. -/
def connFresh : Connection := mkConn 6 (str "bob") [] false

/-- `connFresh` after successfully registering `("svc", 7)`. -/
def connFreshRegistered : Connection :=
  (connFresh.registerService (str "svc") 7).2

/-- A `tcpip-forward` payload with port 0. -/
def fwdPortZero : List Nat :=
  marshalForwardRequest { host := str "x", port := 0 }

/-- A `tcpip-forward` payload with the 32-bit port 65536, whose `uint16`
truncation is 0. -/
def fwdPort65536 : List Nat :=
  marshalForwardRequest { host := str "x", port := 65536 }

/-- A `cancel-tcpip-forward` payload for `("svc", 7)`. -/
def cancelSvc : List Nat :=
  marshalForwardRequest { host := str "svc", port := 7 }

/-- A connection with child sessions and tunnels, used by the teardown claim. -/
def connW : Connection :=
  { id := 7, user := str "w", services := [], admin := false,
    used := 0, closed := false, sessions := [11, 12], tunnels := [21] }

/-- A gateway holding exactly `connW`. -/
def gatewayW : Gateway := newGateway.addConnection connW

/-- An idle connection (`used = 0`), scavenged at `now = 100, timeout = 50`. -/
def connIdle : Connection := mkConn 8 (str "idle") [] false

/-- A busy connection (`used = 90`), kept at `now = 100, timeout = 50`. -/
def connBusy : Connection :=
  { mkConn 9 (str "busy") [] false with used := 90 }

/-- A gateway holding `connBusy` and `connIdle`. -/
def gatewayScav : Gateway :=
  (newGateway.addConnection connIdle).addConnection connBusy

/-- An older connection of user `alice` advertising `("api", 80)`. -/
def connOlder : Connection := mkConn 30 (str "alice") [(str "api", [80])] true

/-- A newer connection of user `alice` also advertising `("api", 80)`. -/
def connNewer : Connection := mkConn 31 (str "alice") [(str "api", [80])] true

/-- A gateway where `connOlder` was added first and `connNewer` second, so the
index entry of `alice` lists `connNewer` first. -/
def gatewayOrder : Gateway :=
  (newGateway.addConnection connOlder).addConnection connNewer

/-! ### Lemmas about splitting and joining host names -/

theorem splitDot_ne_nil (s : List Nat) : splitDot s ≠ [] := by
  cases s with
  | nil => simp [splitDot]
  | cons b rest =>
    by_cases hb : b = dotByte
    · simp [splitDot, hb]
    · simp only [splitDot, if_neg hb]
      cases splitDot rest <;> simp

theorem splitDot_append_dot (a b : List Nat) :
    splitDot (a ++ dotByte :: b) = splitDot a ++ splitDot b := by
  induction a with
  | nil => simp [splitDot]
  | cons x xs ih =>
    by_cases hx : x = dotByte
    · simp [splitDot, hx, ih]
    · obtain ⟨p, ps, hps⟩ : ∃ p ps, splitDot xs = p :: ps := by
        cases hsp : splitDot xs with
        | nil => exact absurd hsp (splitDot_ne_nil xs)
        | cons p ps => exact ⟨p, ps, rfl⟩
      simp only [List.cons_append, splitDot, if_neg hx, List.append_eq, ih, hps]

theorem joinDot_cons_cons (p q : List Nat) (ps : List (List Nat)) :
    joinDot (p :: q :: ps) = p ++ dotByte :: joinDot (q :: ps) := by
  simp [joinDot]

theorem joinDot_splitDot (s : List Nat) : joinDot (splitDot s) = s := by
  induction s with
  | nil => simp [splitDot, joinDot]
  | cons b rest ih =>
    by_cases hb : b = dotByte
    · subst hb
      have h1 : splitDot (dotByte :: rest) = [] :: splitDot rest := by simp [splitDot]
      obtain ⟨p, ps, hps⟩ : ∃ p ps, splitDot rest = p :: ps := by
        cases hsp : splitDot rest with
        | nil => exact absurd hsp (splitDot_ne_nil rest)
        | cons p ps => exact ⟨p, ps, rfl⟩
      rw [h1, hps, joinDot_cons_cons, ← hps, ih]
      simp
    · simp only [splitDot, if_neg hb]
      obtain ⟨p, ps, hps⟩ : ∃ p ps, splitDot rest = p :: ps := by
        cases hsp : splitDot rest with
        | nil => exact absurd hsp (splitDot_ne_nil rest)
        | cons p ps => exact ⟨p, ps, rfl⟩
      rw [hps] at ih ⊢
      cases ps with
      | nil => simpa [joinDot] using ih
      | cons q qs =>
        rw [joinDot_cons_cons] at ih
        rw [joinDot_cons_cons]
        simp [ih]

/-! ### Lemmas about `List.findSome?` and `List.find?` -/

theorem findSome?_eq_none_forall {α β : Type} {f : α → Option β} {l : List α}
    (h : l.findSome? f = none) : ∀ a ∈ l, f a = none := by
  induction l with
  | nil => intro a ha; cases ha
  | cons x xs ih =>
    intro a ha
    rw [List.findSome?_cons] at h
    cases hx : f x with
    | some b => rw [hx] at h; cases h
    | none =>
      rw [hx] at h
      rcases List.mem_cons.mp ha with rfl | ha2
      · exact hx
      · exact ih h a ha2

theorem exists_of_findSome?_some {α β : Type} {f : α → Option β} {l : List α} {b : β}
    (h : l.findSome? f = some b) : ∃ a ∈ l, f a = some b := by
  induction l with
  | nil => cases h
  | cons x xs ih =>
    rw [List.findSome?_cons] at h
    cases hx : f x with
    | some c =>
      rw [hx] at h
      exact ⟨x, List.mem_cons_self x xs, hx.trans h⟩
    | none =>
      rw [hx] at h
      obtain ⟨a, ha, hfa⟩ := ih h
      exact ⟨a, List.mem_cons_of_mem x ha, hfa⟩

theorem findSome?_append_left_none {α β : Type} {f : α → Option β} {l₁ l₂ : List α}
    (h : ∀ x ∈ l₁, f x = none) : (l₁ ++ l₂).findSome? f = l₂.findSome? f := by
  induction l₁ with
  | nil => simp
  | cons x xs ih =>
    simp only [List.cons_append, List.findSome?_cons, h x (List.mem_cons_self x xs)]
    exact ih fun y hy => h y (List.mem_cons_of_mem x hy)

/-- `findSome?` over `range n` at the least index producing a value. -/
theorem findSome?_range_least {β : Type} {f : Nat → Option β} {n i : Nat} {r : β}
    (hi : i < n) (hf : f i = some r) (hmin : ∀ j < i, f j = none) :
    (List.range n).findSome? f = some r := by
  obtain ⟨k, rfl⟩ : ∃ k, n = i + (k + 1) := ⟨n - i - 1, by omega⟩
  rw [List.range_add, findSome?_append_left_none
    (fun x hx => hmin x (List.mem_range.mp hx))]
  rw [List.range_succ_eq_map]
  simp only [List.map_cons, List.findSome?_cons, Nat.add_zero, hf]

theorem find?_middle {α : Type} {p : α → Bool} (pre : List α) (c : α) (post : List α)
    (hpre : ∀ x ∈ pre, p x = false) (hc : p c = true) :
    (pre ++ c :: post).find? p = some c := by
  induction pre with
  | nil => simp [List.find?_cons_of_pos, hc]
  | cons x xs ih =>
    rw [List.cons_append, List.find?_cons_of_neg]
    · exact ih fun y hy => hpre y (List.mem_cons_of_mem x hy)
    · simp [hpre x (List.mem_cons_self x xs)]

/-! ### Lemmas about the services map -/

theorem servicesLookup_update_self (svcs : List (Str × List Nat)) (host : Str) (ports : List Nat) :
    servicesLookup (servicesUpdate svcs host ports) host = some ports := by
  induction svcs with
  | nil => simp [servicesUpdate, servicesLookup]
  | cons e rest ih =>
    obtain ⟨h, ps⟩ := e
    by_cases he : h = host
    · simp [servicesUpdate, servicesLookup, he]
    · simp [servicesUpdate, servicesLookup, he, ih]

theorem contains_filter_ne (l : List Nat) (p : Nat) :
    (l.filter (fun x => x != p)).contains p = false := by
  induction l with
  | nil => rfl
  | cons x xs ih =>
    by_cases hx : x = p
    · simp [List.filter_cons, hx, ih]
    · simp [List.filter_cons, hx, List.contains_cons, Ne.symm hx, ih]

theorem lookupService_eq_contains (c : Connection) (host : Str) (port : Nat) :
    c.lookupService host port = ((servicesLookup c.services host).getD []).contains port := by
  unfold Connection.lookupService
  cases servicesLookup c.services host <;> simp

theorem registerService_success_lookup {c c2 : Connection} {host : Str} {port : Nat}
    (h : c.registerService host port = (none, c2)) :
    c2.lookupService host port = true := by
  unfold Connection.registerService at h
  by_cases hdup : ((servicesLookup c.services host).getD []).contains port = true
  · rw [if_pos hdup] at h
    cases h
  · rw [if_neg hdup] at h
    have hc2 := congrArg Prod.snd h
    simp only at hc2
    rw [← hc2]
    unfold Connection.lookupService
    simp only [servicesLookup_update_self, List.contains_cons]
    simp

theorem deregisterService_ok (c : Connection) (host : Str) (port : Nat) :
    (c.deregisterService host port).1 = none := by
  unfold Connection.deregisterService
  cases servicesLookup c.services host <;> simp

theorem deregisterService_lookup_false (c : Connection) (host : Str) (port : Nat) :
    (c.deregisterService host port).2.lookupService host port = false := by
  unfold Connection.deregisterService
  cases hl : servicesLookup c.services host with
  | none => simp [Connection.lookupService, hl]
  | some ports =>
    simp only [Connection.lookupService, servicesLookup_update_self]
    exact contains_filter_ne ports port

theorem handleRequest_forward_eq (c : Connection) (payload : List Nat) (req : ForwardRequest)
    (h : unmarshalForwardRequest payload = some req) :
    c.handleRequest (str "tcpip-forward") payload =
      (if req.port = 0 then (false, c)
       else
         match c.registerService req.host (req.port % 65536) with
         | (some _, c2) => (false, c2)
         | (none, c2) => (true, c2)) := by
  unfold Connection.handleRequest
  rw [if_pos rfl, h]

theorem handleRequest_cancel_eq (c : Connection) (payload : List Nat) (req : ForwardRequest)
    (h : unmarshalForwardRequest payload = some req) :
    c.handleRequest (str "cancel-tcpip-forward") payload =
      (match c.deregisterService req.host (req.port % 65536) with
       | (some _, c2) => (false, c2)
       | (none, c2) => (true, c2)) := by
  unfold Connection.handleRequest
  rw [if_neg (by decide), if_pos rfl, h]

/-! ### Claim theorems -/

/-- C5 (confirmed): after a successful registration of `(host, port)` on a
connection, registering the same pair again returns
`ErrServiceAlreadyRegistered`, leaves the connection (hence its services map)
unchanged, and the first registration is still in place. -/
theorem registerService_duplicate_rejected (c c2 : Connection) (host : Str) (port : Nat)
    (h : c.registerService host port = (none, c2)) :
    c2.registerService host port = (some GwError.serviceAlreadyRegistered, c2) ∧
      c2.lookupService host port = true := by
  have hl : c2.lookupService host port = true := registerService_success_lookup h
  refine ⟨?_, hl⟩
  have hcont : ((servicesLookup c2.services host).getD []).contains port = true := by
    rw [← lookupService_eq_contains]
    exact hl
  unfold Connection.registerService
  rw [if_pos hcont]

/-- Witness for C5 at a concrete connection: register `("svc", 7)` on a fresh
connection, then register it again. -/
theorem registerService_duplicate_rejected_witness :
    connFreshRegistered.registerService (str "svc") 7 =
        (some GwError.serviceAlreadyRegistered, connFreshRegistered) ∧
      connFreshRegistered.lookupService (str "svc") 7 = true :=
  registerService_duplicate_rejected connFresh connFreshRegistered (str "svc") 7 (by decide)

/-- C6 (confirmed): a `cancel-tcpip-forward` request whose payload decodes
gets an ok reply, afterwards the `(host, uint16 port)` pair is absent from the
connection's services, and `deregisterService` succeeds even when the service
was never registered. -/
theorem cancelForward_ok_and_removed (c : Connection) (payload : List Nat) (req : ForwardRequest)
    (h : unmarshalForwardRequest payload = some req) :
    (c.handleRequest (str "cancel-tcpip-forward") payload).1 = true ∧
      (c.handleRequest (str "cancel-tcpip-forward") payload).2.lookupService
        req.host (req.port % 65536) = false ∧
      ∀ (c0 : Connection) (host : Str) (port : Nat),
        (c0.deregisterService host port).1 = none := by
  have hres : c.handleRequest (str "cancel-tcpip-forward") payload =
      (true, (c.deregisterService req.host (req.port % 65536)).2) := by
    rw [handleRequest_cancel_eq c payload req h]
    have hok := deregisterService_ok c req.host (req.port % 65536)
    cases hd : c.deregisterService req.host (req.port % 65536) with
    | mk e c2 =>
      rw [hd] at hok
      simp only at hok
      subst hok
      rfl
  rw [hres]
  exact ⟨rfl, deregisterService_lookup_false c req.host (req.port % 65536),
    fun c0 host port => deregisterService_ok c0 host port⟩

/-- Witness for C6: cancel `("svc", 7)` on the connection that has it
registered. -/
theorem cancelForward_ok_and_removed_witness :
    (connFreshRegistered.handleRequest (str "cancel-tcpip-forward") cancelSvc).1 = true ∧
      (connFreshRegistered.handleRequest (str "cancel-tcpip-forward") cancelSvc).2.lookupService
        (str "svc") (7 % 65536) = false ∧
      ∀ (c0 : Connection) (host : Str) (port : Nat),
        (c0.deregisterService host port).1 = none :=
  cancelForward_ok_and_removed connFreshRegistered cancelSvc
    { host := str "svc", port := 7 } (by decide)

/-- C9 (confirmed): a `tcpip-forward` request whose decoded port is 0 is
replied to negatively and leaves the connection, in particular its services
map, unchanged. -/
theorem tcpipForward_portZero_rejected (c : Connection) (payload : List Nat) (req : ForwardRequest)
    (h : unmarshalForwardRequest payload = some req) (hp : req.port = 0) :
    c.handleRequest (str "tcpip-forward") payload = (false, c) := by
  rw [handleRequest_forward_eq c payload req h, if_pos hp]

/-- Witness for C9: port 0 forward request on a fresh connection. -/
theorem tcpipForward_portZero_rejected_witness :
    connFresh.handleRequest (str "tcpip-forward") fwdPortZero = (false, connFresh) :=
  tcpipForward_portZero_rejected connFresh fwdPortZero
    { host := str "x", port := 0 } (by decide) rfl

/-- C10 (confirmed): whenever a `tcpip-forward` request with decoded 32-bit
port `p > 0` is accepted, the port registered is `p % 65536`; in particular the
payload with port 65536 passes the port-0 guard and registers port 0. -/
theorem tcpipForward_port_truncated :
    (∀ (c : Connection) (payload : List Nat) (req : ForwardRequest),
      unmarshalForwardRequest payload = some req →
      (c.handleRequest (str "tcpip-forward") payload).1 = true →
      (c.handleRequest (str "tcpip-forward") payload).2.lookupService
        req.host (req.port % 65536) = true) ∧
    (connFresh.handleRequest (str "tcpip-forward") fwdPort65536).1 = true ∧
      (connFresh.handleRequest (str "tcpip-forward") fwdPort65536).2.lookupService
        (str "x") 0 = true := by
  refine ⟨?_, by decide, by decide⟩
  intro c payload req h hok
  rw [handleRequest_forward_eq c payload req h] at hok ⊢
  by_cases hp : req.port = 0
  · rw [if_pos hp] at hok
    cases hok
  · rw [if_neg hp] at hok ⊢
    rcases hr : c.registerService req.host (req.port % 65536) with ⟨e, c2⟩
    rw [hr] at hok
    cases e with
    | some err => exact Bool.noConfusion hok
    | none => exact registerService_success_lookup hr

/-- Witness for C10's quantified part: the port-65536 payload from a fresh
connection registers port `65536 % 65536`. -/
theorem tcpipForward_port_truncated_witness :
    (connFresh.handleRequest (str "tcpip-forward") fwdPort65536).2.lookupService
      (str "x") (65536 % 65536) = true :=
  tcpipForward_port_truncated.1 connFresh fwdPort65536
    { host := str "x", port := 65536 } (by decide) (by decide)

theorem handleTunnelChannel_eq (c : Connection) (g : Gateway) (ed : List Nat) (data : TunnelData)
    (h : unmarshalTunnelData ed = some data) :
    c.handleTunnelChannel g ed =
      (match g.lookupConnectionService data.host (data.port % 65536) with
        | none => TunnelChannelResult.rejected RejectionReason.connectionFailed
        | some (connection, host, port) =>
          if !c.admin then TunnelChannelResult.rejected RejectionReason.prohibited
          else
            TunnelChannelResult.opensForwarded connection.id
              { host := host, port := port,
                originAddress := data.originAddress, originPort := data.originPort }) := by
  unfold Connection.handleTunnelChannel
  rw [h]

/-- C2 counterexample: a non-admin connection opening `direct-tcpip` to a
service that does not exist is rejected with `ConnectionFailed`, not
`Prohibited`, because the source checks the service lookup before the admin
flag; this refutes the claim's "whether or not a matching service exists". -/
theorem nonAdmin_missing_service_counterexample :
    (unmarshalTunnelData tdToNowhere).isSome = true ∧
      connNoAdmin.admin = false ∧
      connNoAdmin.handleTunnelChannel gatewayTarget tdToNowhere =
        TunnelChannelResult.rejected RejectionReason.connectionFailed ∧
      RejectionReason.connectionFailed ≠ RejectionReason.prohibited := by
  refine ⟨by decide, by decide, by decide, by decide⟩

/-- C2 (amended): a `direct-tcpip` open from a non-admin connection whose
payload decodes is always rejected: with `Prohibited` when the service lookup
succeeds, and with `ConnectionFailed` when no matching service exists. -/
theorem nonAdmin_tunnel_rejected (c : Connection) (g : Gateway) (ed : List Nat) (data : TunnelData)
    (hadmin : c.admin = false) (hdec : unmarshalTunnelData ed = some data) :
    c.handleTunnelChannel g ed =
      TunnelChannelResult.rejected
        (if (g.lookupConnectionService data.host (data.port % 65536)).isSome
          then RejectionReason.prohibited else RejectionReason.connectionFailed) := by
  rw [handleTunnelChannel_eq c g ed data hdec]
  cases hl : g.lookupConnectionService data.host (data.port % 65536) with
  | none => rfl
  | some r =>
    rcases r with ⟨target, host, port⟩
    simp [hadmin]

/-- Witness for C2's amended theorem: the non-admin caller requesting the
registered service `("alice", 22)` is rejected with `Prohibited`. -/
theorem nonAdmin_tunnel_rejected_witness :
    connNoAdmin.handleTunnelChannel gatewayTarget tdToAlice =
      TunnelChannelResult.rejected
        (if (gatewayTarget.lookupConnectionService (str "alice") (22 % 65536)).isSome
          then RejectionReason.prohibited else RejectionReason.connectionFailed) :=
  nonAdmin_tunnel_rejected connNoAdmin gatewayTarget tdToAlice
    { host := str "alice", port := 22, originAddress := str "1.2.3.4", originPort := 5 }
    rfl (by decide)

/-- C3 (confirmed): an admin `direct-tcpip` open whose service lookup succeeds
makes the gateway open `forwarded-tcpip` on the target connection with the
destination rewritten to the service's registered coordinates and the origin
address and port propagated unchanged. -/
theorem admin_tunnel_opens_forwarded (c : Connection) (g : Gateway) (ed : List Nat)
    (data : TunnelData) (target : Connection) (host : Str) (port : Nat)
    (hadmin : c.admin = true) (hdec : unmarshalTunnelData ed = some data)
    (hlookup : g.lookupConnectionService data.host (data.port % 65536) = some (target, host, port)) :
    c.handleTunnelChannel g ed =
      TunnelChannelResult.opensForwarded target.id
        { host := host, port := port,
          originAddress := data.originAddress, originPort := data.originPort } := by
  rw [handleTunnelChannel_eq c g ed data hdec, hlookup]
  simp [hadmin]

/-- Witness for C3: the admin caller requesting `("alice", 22)` makes the
gateway open `forwarded-tcpip` on `connTarget` with the destination rewritten
to the registered `("", 22)` and origin `1.2.3.4:5` unchanged. -/
theorem admin_tunnel_opens_forwarded_witness :
    connAdmin.handleTunnelChannel gatewayTarget tdToAlice =
      TunnelChannelResult.opensForwarded connTarget.id
        { host := str "", port := 22,
          originAddress := str "1.2.3.4", originPort := 5 } :=
  admin_tunnel_opens_forwarded connAdmin gatewayTarget tdToAlice
    { host := str "alice", port := 22, originAddress := str "1.2.3.4", originPort := 5 }
    connTarget (str "") 22 rfl (by decide) (by decide)

/-- C1 counterexample: with `connAlice` (user `alice`) live and advertising
`("api", 80)`, looking up `user ++ "." ++ host = "alice.api"` finds nothing,
because the code splits the full host as service-host-prefix and user-suffix,
not the other way around; and with `connEmptyUser` (empty user) advertising
`("api", 80)`, looking up `("api", 80)` directly also finds nothing, because
the loop `for i := range parts` never tries the empty-user partition. -/
theorem lookup_user_dot_host_counterexample :
    gatewayAlice.lookupConnectionService (str "alice" ++ dotByte :: str "api") 80 = none ∧
      connAlice ∈ gatewayAlice.connectionsIndex connAlice.user ∧
      connAlice.lookupService (str "api") 80 = true ∧
      gatewayEmptyUser.lookupConnectionService (str "api") 80 = none ∧
      connEmptyUser ∈ gatewayEmptyUser.connectionsIndex connEmptyUser.user ∧
      connEmptyUser.user = str "" ∧
      connEmptyUser.lookupService (str "api") 80 = true := by
  refine ⟨by decide, by decide, by decide, by decide, by decide, by decide, by decide⟩

/-- C1 (amended): for every connection `c` registered in the gateway's index
under its user and every advertised `(host, port)`, looking up
`host ++ "." ++ c.user` (the service host first, then the owning user; the
same form also covers the empty user) returns some connection `c2` and host
label `h2` with the same port such that `c2` advertises `(h2, port)`. -/
theorem lookup_finds_advertised (g : Gateway) (c : Connection) (host : Str) (port : Nat)
    (hlive : c ∈ g.connectionsIndex c.user)
    (hadv : c.lookupService host port = true) :
    ∃ (c2 : Connection) (h2 : Str),
      g.lookupConnectionService (host ++ dotByte :: c.user) port = some (c2, h2, port) ∧
        c2.lookupService h2 port = true := by
  have hsplit : splitDot (host ++ dotByte :: c.user) = splitDot host ++ splitDot c.user :=
    splitDot_append_dot host c.user
  have husernil : splitDot c.user ≠ [] := splitDot_ne_nil c.user
  have huserlen : 0 < (splitDot c.user).length := List.length_pos.mpr husernil
  have hlen : (splitDot host).length < (splitDot (host ++ dotByte :: c.user)).length := by
    rw [hsplit, List.length_append]
    omega
  have htake : (splitDot (host ++ dotByte :: c.user)).take (splitDot host).length = splitDot host := by
    rw [hsplit]
    exact List.take_left _ _
  have hdrop : (splitDot (host ++ dotByte :: c.user)).drop (splitDot host).length = splitDot c.user := by
    rw [hsplit]
    exact List.drop_left _ _
  have hprobe :
      (lookupProbe g (splitDot (host ++ dotByte :: c.user)) port (splitDot host).length).isSome := by
    unfold lookupProbe
    rw [htake, hdrop, joinDot_splitDot, joinDot_splitDot]
    have hfind : ((g.connectionsIndex c.user).find?
        (fun s => s.lookupService host port)).isSome :=
      List.find?_isSome.mpr ⟨c, hlive, hadv⟩
    cases hf : (g.connectionsIndex c.user).find? (fun s => s.lookupService host port) with
    | none => rw [hf] at hfind; cases hfind
    | some t => simp
  cases hres : g.lookupConnectionService (host ++ dotByte :: c.user) port with
  | none =>
    exfalso
    unfold Gateway.lookupConnectionService at hres
    have hnone := findSome?_eq_none_forall hres (splitDot host).length (List.mem_range.mpr hlen)
    rw [hnone] at hprobe
    cases hprobe
  | some r =>
    unfold Gateway.lookupConnectionService at hres
    obtain ⟨a, _, hfa⟩ := exists_of_findSome?_some hres
    unfold lookupProbe at hfa
    cases hf : (g.connectionsIndex (joinDot ((splitDot (host ++ dotByte :: c.user)).drop a))).find?
        (fun s => s.lookupService (joinDot ((splitDot (host ++ dotByte :: c.user)).take a)) port) with
    | none => rw [hf] at hfa; cases hfa
    | some t =>
      rw [hf] at hfa
      have hpred := List.find?_some hf
      injection hfa with hfa2
      refine ⟨t, joinDot ((splitDot (host ++ dotByte :: c.user)).take a), ?_, hpred⟩
      rw [← hfa2]

/-- Witness for C1's amended theorem: looking up `"api.alice"` on the gateway
holding `connAlice` succeeds with a connection advertising the found label. -/
theorem lookup_finds_advertised_witness :
    ∃ (c2 : Connection) (h2 : Str),
      gatewayAlice.lookupConnectionService (str "api" ++ dotByte :: str "alice") 80 =
          some (c2, h2, 80) ∧
        c2.lookupService h2 80 = true :=
  lookup_finds_advertised gatewayAlice connAlice (str "api") 80 (by decide) (by decide)

/-- C4 (confirmed): the lookup enumerates the dot-split partitions of the full
host in increasing service-host-prefix length, and within each candidate user
scans that user's connections front-to-back (most-recently-added first, since
`addConnection` prepends); the first connection advertising the candidate
`(host, port)` is returned with that partition's host label. -/
theorem lookup_order (g : Gateway) (host : Str) (port : Nat) (i : Nat)
    (pre post : List Connection) (c : Connection)
    (hi : i < (splitDot host).length)
    (hidx : g.connectionsIndex (joinDot ((splitDot host).drop i)) = pre ++ c :: post)
    (hpre : ∀ x ∈ pre, x.lookupService (joinDot ((splitDot host).take i)) port = false)
    (hc : c.lookupService (joinDot ((splitDot host).take i)) port = true)
    (hmin : ∀ j, j < i → ∀ x ∈ g.connectionsIndex (joinDot ((splitDot host).drop j)),
      x.lookupService (joinDot ((splitDot host).take j)) port = false) :
    g.lookupConnectionService host port =
        some (c, joinDot ((splitDot host).take i), port) ∧
      ∀ (g2 : Gateway) (c2 : Connection),
        (g2.addConnection c2).connectionsIndex c2.user = c2 :: g2.connectionsIndex c2.user ∧
          (g2.addConnection c2).connectionsList = c2 :: g2.connectionsList := by
  constructor
  · unfold Gateway.lookupConnectionService
    apply findSome?_range_least hi
    · unfold lookupProbe
      rw [hidx, find?_middle pre c post hpre hc]
    · intro j hj
      unfold lookupProbe
      have hfind : (g.connectionsIndex (joinDot ((splitDot host).drop j))).find?
          (fun s => s.lookupService (joinDot ((splitDot host).take j)) port) = none :=
        List.find?_eq_none.mpr fun x hx => by rw [hmin j hj x hx]; simp
      rw [hfind]
  · intro g2 c2
    exact ⟨by simp [Gateway.addConnection], rfl⟩

/-- Witness for C4: with two `alice` connections both advertising
`("api", 80)`, looking up `"api.alice"` returns the most recently added one at
the partition with the one-label service host. -/
theorem lookup_order_witness :
    gatewayOrder.lookupConnectionService (str "api.alice") 80 =
        some (connNewer, joinDot ((splitDot (str "api.alice")).take 1), 80) ∧
      ∀ (g2 : Gateway) (c2 : Connection),
        (g2.addConnection c2).connectionsIndex c2.user = c2 :: g2.connectionsIndex c2.user ∧
          (g2.addConnection c2).connectionsList = c2 :: g2.connectionsList :=
  lookup_order gatewayOrder (str "api.alice") 80 1 [] [connOlder] connNewer
    (by decide) (by decide) (by decide) (by decide) (by decide)

theorem close_eq_of_open {g : Gateway} {c : Connection} (h : c.closed = false) :
    Connection.Close g c =
      (g.deleteConnection c, { c with closed := true },
        CloseAction.deleteFromGateway ::
          (c.sessions.map CloseAction.closeSession ++
            c.tunnels.map CloseAction.closeTunnel ++ [CloseAction.closeTransport])) := by
  unfold Connection.Close
  rw [if_neg (by simp [h])]

/-- C7 (confirmed): when an unclosed connection is closed, it is afterwards in
neither the gateway's flat list nor (given the registration invariant that it
only ever appears under its own user) any entry of the per-user index; the
deregistration is the first teardown action and the transport close the last;
and a second `Close` on the result is a no-op. -/
theorem close_removes_and_idempotent (g : Gateway) (c : Connection) :
    (c.closed = false →
      (∀ s ∈ (Connection.Close g c).1.connectionsList, s.id ≠ c.id) ∧
        ((∀ u, u ≠ c.user → ∀ s ∈ g.connectionsIndex u, s.id ≠ c.id) →
          ∀ (u : Str), ∀ s ∈ (Connection.Close g c).1.connectionsIndex u, s.id ≠ c.id) ∧
        (Connection.Close g c).2.2.head? = some CloseAction.deleteFromGateway ∧
        (Connection.Close g c).2.2.getLast? = some CloseAction.closeTransport) ∧
      Connection.Close (Connection.Close g c).1 (Connection.Close g c).2.1 =
        ((Connection.Close g c).1, (Connection.Close g c).2.1, []) := by
  constructor
  · intro hopen
    rw [close_eq_of_open hopen]
    refine ⟨?_, ?_, rfl, ?_⟩
    · intro s hs
      simp only [Gateway.deleteConnection] at hs
      have h2 := (List.mem_filter.mp hs).2
      simpa using h2
    · intro hinv u s hs
      simp only [Gateway.deleteConnection] at hs
      by_cases hu : u = c.user
      · rw [if_pos hu] at hs
        have h2 := (List.mem_filter.mp hs).2
        simpa using h2
      · rw [if_neg hu] at hs
        exact hinv u hu s hs
    · have hsplit : CloseAction.deleteFromGateway ::
          (c.sessions.map CloseAction.closeSession ++
            c.tunnels.map CloseAction.closeTunnel ++ [CloseAction.closeTransport]) =
          (CloseAction.deleteFromGateway ::
            (c.sessions.map CloseAction.closeSession ++
              c.tunnels.map CloseAction.closeTunnel)) ++ [CloseAction.closeTransport] := by
        simp
      simp only [hsplit]
      exact List.getLast?_concat _
  · cases hcl : c.closed with
    | true =>
      have h1 : Connection.Close g c = (g, c, []) := by
        unfold Connection.Close
        simp [hcl]
      rw [h1]
      unfold Connection.Close
      simp [hcl]
    | false =>
      rw [close_eq_of_open hcl]
      unfold Connection.Close
      simp

/-- Witness for C7 on a concrete gateway holding one connection with two child
sessions and one child tunnel. -/
theorem close_removes_and_idempotent_witness :
    (∀ s ∈ (Connection.Close gatewayW connW).1.connectionsList, s.id ≠ connW.id) ∧
      (∀ (u : Str), ∀ s ∈ (Connection.Close gatewayW connW).1.connectionsIndex u, s.id ≠ connW.id) ∧
      (Connection.Close gatewayW connW).2.2.head? = some CloseAction.deleteFromGateway ∧
      (Connection.Close gatewayW connW).2.2.getLast? = some CloseAction.closeTransport ∧
      Connection.Close (Connection.Close gatewayW connW).1 (Connection.Close gatewayW connW).2.1 =
        ((Connection.Close gatewayW connW).1, (Connection.Close gatewayW connW).2.1, []) := by
  have h := close_removes_and_idempotent gatewayW connW
  have hinv : ∀ u, u ≠ connW.user → ∀ s ∈ gatewayW.connectionsIndex u, s.id ≠ connW.id := by
    intro u hu s hs
    have hidx : gatewayW.connectionsIndex u = [] := by
      simp [gatewayW, Gateway.addConnection, newGateway, hu]
    rw [hidx] at hs
    cases hs
  exact ⟨(h.1 rfl).1, (h.1 rfl).2.1 hinv, (h.1 rfl).2.2.1, (h.1 rfl).2.2.2, h.2⟩

theorem close_list_of_open {g : Gateway} {c : Connection} (h : c.closed = false) :
    (Connection.Close g c).1.connectionsList =
      g.connectionsList.filter (fun s => s.id != c.id) := by
  rw [close_eq_of_open h]
  rfl

theorem close_noop_of_closed {g : Gateway} {c : Connection} (h : c.closed = true) :
    Connection.Close g c = (g, c, []) := by
  unfold Connection.Close
  simp [h]

theorem scavengeGo_cons (now timeout : Int) (g : Gateway) (c : Connection)
    (rest : List Connection) :
    scavengeGo now timeout g (c :: rest) =
      if now - c.used > timeout then scavengeGo now timeout (Connection.Close g c).1 rest
      else scavengeGo now timeout g rest := rfl

theorem scavengeGo_list (now timeout : Int) (L : List Connection) :
    ∀ g : Gateway,
      (scavengeGo now timeout g L).connectionsList =
        g.connectionsList.filter
          (fun s => !(L.any fun c =>
            decide (now - c.used > timeout) && (s.id == c.id) && !c.closed)) := by
  induction L with
  | nil =>
    intro g
    simp [scavengeGo]
  | cons c rest ih =>
    intro g
    by_cases ht : now - c.used > timeout
    · have hdec : decide (now - c.used > timeout) = true := by simp [ht]
      rw [scavengeGo_cons, if_pos ht, ih]
      cases hcl : c.closed with
      | true =>
        rw [close_noop_of_closed hcl]
        apply List.filter_congr
        intro s hs
        simp [List.any_cons, hcl]
      | false =>
        rw [close_list_of_open hcl, List.filter_filter]
        apply List.filter_congr
        intro s hs
        simp only [List.any_cons, Bool.not_or, hdec, hcl, Bool.not_false, Bool.and_true,
          Bool.true_and, bne]
        cases hsc : s.id == c.id <;> simp
    · have hdec : decide (now - c.used > timeout) = false := by simp [ht]
      rw [scavengeGo_cons, if_neg ht, ih]
      apply List.filter_congr
      intro s hs
      simp [List.any_cons, hdec]

/-- C8 (confirmed): provided the registered connections have pairwise distinct
identities and none is already closed, scavenging closes exactly the
connections whose idle time `now - used` strictly exceeds the timeout: the
resulting list is the original list with exactly those removed, every other
connection left in place unchanged. -/
theorem scavenge_closes_exactly_idle (g : Gateway) (now timeout : Int)
    (hnodup : (g.connectionsList.map fun c => c.id).Nodup)
    (hopen : ∀ c ∈ g.connectionsList, c.closed = false) :
    (g.scavengeConnections now timeout).connectionsList =
      g.connectionsList.filter (fun c => !decide (now - c.used > timeout)) := by
  unfold Gateway.scavengeConnections
  rw [scavengeGo_list]
  apply List.filter_congr
  intro s hs
  have hkey : (g.connectionsList.any fun c =>
      decide (now - c.used > timeout) && (s.id == c.id) && !c.closed) =
      decide (now - s.used > timeout) := by
    by_cases ht : now - s.used > timeout
    · have hany : (g.connectionsList.any fun c =>
          decide (now - c.used > timeout) && (s.id == c.id) && !c.closed) = true :=
        List.any_eq_true.mpr ⟨s, hs, by simp [ht, hopen s hs]⟩
      rw [hany]
      simp [ht]
    · have hany : (g.connectionsList.any fun c =>
          decide (now - c.used > timeout) && (s.id == c.id) && !c.closed) = false := by
        rw [List.any_eq_false]
        intro x hx
        by_cases hid : s.id = x.id
        · have hxs : x = s := List.inj_on_of_nodup_map hnodup hx hs hid.symm
          subst hxs
          simp [ht]
        · simp [hid]
      rw [hany]
      simp [ht]
  rw [hkey]

/-- Witness for C8: at `now = 100, timeout = 50` the gateway holding the busy
(`used = 90`) and idle (`used = 0`) connections keeps exactly the busy one. -/
theorem scavenge_closes_exactly_idle_witness :
    (gatewayScav.scavengeConnections 100 50).connectionsList =
      gatewayScav.connectionsList.filter (fun c => !decide ((100 : Int) - c.used > 50)) :=
  scavenge_closes_exactly_idle gatewayScav 100 50 (by decide) (by decide)

